import Mathlib

/-!
Verification of the position-store core of `go-adsb-console`.

Shallow embedding conventions:
* Go `float64` fields are modelled as `ℚ` (the code only compares them for
  equality/order and truncates them to integers; no float arithmetic occurs).
* Go `int`/`int64` are modelled as `Int`; `time.Duration` values are `Int`
  nanoseconds.
* The Go map `map[string]AircraftPos` is modelled as an association list
  `List (String × AircraftPos)`; `lookupStore`/`insertStore`/filtering model
  map indexing, assignment and `delete` during `range` (each original entry is
  visited exactly once and only the visited key is ever deleted, so the sweep
  is a filter).
* Fallible Go functions returning `(T, error)` are modelled as
  `Except String T`.
* Lock/map/publish side effects are recorded in an explicit action trace so
  that lock discipline can be stated; the state-returning functions are
  projections of the trace-returning ones.
-/

/-- `Aircraft` from `aircraft.go` (FlightAware schema): all JSON-decoded
fields, in source order.  `float64` fields are `ℚ`, integer fields `Int`.
The Go field `Type` is rendered as `type_` (`Type` is not a valid Lean field
name). -/
structure Aircraft where
  Hex : String
  Flight : String
  AltBaro : Int
  AltGeom : Int
  Gs : ℚ
  Ias : Int
  Tas : Int
  Mach : ℚ
  Track : ℚ
  TrackRate : ℚ
  Roll : ℚ
  MagHeading : ℚ
  TrueHeading : ℚ
  BaroRate : Int
  GeomRate : Int
  Squawk : String
  Emergency : String
  Category : String
  NavQnh : ℚ
  NavAltitudeMcp : Int
  NavHeading : ℚ
  Lat : ℚ
  Lon : ℚ
  Nic : Int
  Rc : Int
  SeenPos : ℚ
  Version : Int
  NicBaro : Int
  NacP : Int
  NacV : Int
  Sil : Int
  SilType : String
  Gva : Int
  Sda : Int
  Messages : Int
  Seen : ℚ
  Rssi : ℚ
  Timestamp : Int
  type_ : String
  StationName : String

/-- The Go zero value of `Aircraft`: what `store.aircraft[k]` yields for an
absent key. -/
def Aircraft.zero : Aircraft :=
  { Hex := "", Flight := "", AltBaro := 0, AltGeom := 0, Gs := 0, Ias := 0,
    Tas := 0, Mach := 0, Track := 0, TrackRate := 0, Roll := 0,
    MagHeading := 0, TrueHeading := 0, BaroRate := 0, GeomRate := 0,
    Squawk := "", Emergency := "", Category := "", NavQnh := 0,
    NavAltitudeMcp := 0, NavHeading := 0, Lat := 0, Lon := 0, Nic := 0,
    Rc := 0, SeenPos := 0, Version := 0, NicBaro := 0, NacP := 0, NacV := 0,
    Sil := 0, SilType := "", Gva := 0, Sda := 0, Messages := 0, Seen := 0,
    Rssi := 0, Timestamp := 0, type_ := "", StationName := "" }

/-- `Scan` from `aircraft.go`: one decoded snapshot. -/
structure Scan where
  Now : ℚ
  Messages : Int
  Aircraft : List Aircraft

/-- `AircraftPos` from `aircraft.go`: a store entry, record plus dirty flag. -/
structure AircraftPos where
  modified : Bool
  aircraft : Aircraft

/-- The Go zero value of `AircraftPos`. -/
def AircraftPos.zero : AircraftPos := { modified := false, aircraft := Aircraft.zero }

/-- The store's map `map[string]AircraftPos`, as an association list. -/
abbrev Store := List (String × AircraftPos)

/-- Map indexing `store.aircraft[k]`. -/
def lookupStore : Store → String → Option AircraftPos
  | [], _ => none
  | (k, v) :: rest, key => if k = key then some v else lookupStore rest key

/-- Map assignment `store.aircraft[k] = v`: replace in place, or add. -/
def insertStore : Store → String → AircraftPos → Store
  | [], k, v => [(k, v)]
  | (k', v') :: rest, k, v =>
      if k' = k then (k, v) :: rest else (k', v') :: insertStore rest k v

/-- `HasMoved` from `aircraft.go`: error when either callsign is empty or the
two differ; otherwise true iff one of lon, lat, geometric altitude,
barometric altitude or track differs. -/
def HasMoved (a1 a2 : Aircraft) : Except String Bool :=
  if a1.Flight = "" ∨ a2.Flight = "" then
    Except.error "a1 and/or a2 represents unknown aircraft"
  else if a1.Flight ≠ a2.Flight then
    Except.error "a1 and a2 represent different aircraft"
  else
    Except.ok (decide (¬(a1.Lon = a2.Lon ∧ a1.Lat = a2.Lat ∧
      a1.AltGeom = a2.AltGeom ∧ a1.AltBaro = a2.AltBaro ∧
      a1.Track = a2.Track)))

/-- The `moved, _ := HasMoved(...)` idiom: the error is discarded and `moved`
is the Go zero value `false` when `HasMoved` errors. -/
def movedOrFalse (a1 a2 : Aircraft) : Bool :=
  match HasMoved a1 a2 with
  | Except.ok b => b
  | Except.error _ => false

/-- Go's `unicode.IsSpace` on the characters that have a Latin-1
representation: the whitespace set `strings.TrimSpace` trims. -/
def isGoSpace (c : Char) : Bool :=
  c = ' ' || c = '\t' || c = '\n' || c = '\x0b' || c = '\x0c' || c = '\r' ||
  c = '\u0085' || c = '\u00a0'

/-- `strings.TrimSpace`: drop leading and trailing whitespace. -/
def trimSpace (s : String) : String :=
  String.mk (((s.data.dropWhile isGoSpace).reverse.dropWhile isGoSpace).reverse)

/-- The in-place normalisation in `updateAircraft`'s loop body: trim the
callsign, stamp `Type` and `StationName`, default the timestamp to ingest
time (`now`, in the unit the code uses) only when the source left it zero. -/
def normalizeAircraft (a : Aircraft) (station : String) (now : Int) : Aircraft :=
  { a with
    Flight := trimSpace a.Flight
    type_ := "AIRCRAFT"
    StationName := station
    Timestamp := if a.Timestamp = 0 then now else a.Timestamp }

/-- The admission test at the top of `updateAircraft`'s loop: a record is
skipped when its (untrimmed) callsign is empty or either coordinate is 0. -/
def admissible (a : Aircraft) : Bool :=
  decide (¬(a.Flight = "" ∨ a.Lon = 0 ∨ a.Lat = 0))


/-- One observable primitive step on the shared state: acquiring/releasing
the store's mutex, reading/writing/deleting a key of the store's map, or
calling the external sink's publish operation. -/
inductive StoreAction where
  | lockA : StoreAction
  | unlockA : StoreAction
  | readMap : String → StoreAction
  | writeMap : String → StoreAction
  | deleteMap : String → StoreAction
  | publishA : StoreAction

/-- The per-record body of `updateAircraft`'s loop after admission and
normalisation, with its action trace:
`a2, ok := store.aircraft[k]` (an unlocked map read), the discarded-error
`HasMoved` call, and — unless the entry exists and has not moved — a locked
map assignment of the record with `modified: true`. -/
def upsertAircraftT (st : Store) (a : Aircraft) : Store × List StoreAction :=
  let prev := lookupStore st a.Flight
  let a2 := prev.getD AircraftPos.zero
  let moved := movedOrFalse a a2.aircraft
  if prev.isSome ∧ moved = false then
    (st, [StoreAction.readMap a.Flight])
  else
    (insertStore st a.Flight { modified := true, aircraft := a },
     [StoreAction.readMap a.Flight, StoreAction.lockA, StoreAction.writeMap a.Flight,
      StoreAction.unlockA])

/-- `upsertAircraftT` without its trace. -/
def upsertAircraft (st : Store) (a : Aircraft) : Store :=
  (upsertAircraftT st a).1

/-- `updateAircraft`'s loop over the scan slice, with trace.  Besides the
store it returns the scan slice as the loop leaves it: the normalisation
writes to `s.Aircraft[i]` in place, so admissible records are trimmed/stamped
in the slice that the caller later hands to `purgeAircraft`. -/
def updateAircraftT (station : String) (now : Int) :
    List Aircraft → Store → Store × List Aircraft × List StoreAction
  | [], st => (st, [], [])
  | a :: rest, st =>
    if admissible a then
      let a2 := normalizeAircraft a station now
      let r1 := upsertAircraftT st a2
      let r2 := updateAircraftT station now rest r1.1
      (r2.1, a2 :: r2.2.1, r1.2 ++ r2.2.2)
    else
      let r2 := updateAircraftT station now rest st
      (r2.1, a :: r2.2.1, r2.2.2)

/-- `updateAircraft` from `aircraft.go`: merge a scan into the store.
Returns the updated store and the (in-place normalised) scan. -/
def updateAircraft (s : Scan) (st : Store) (station : String) (now : Int) :
    Store × Scan :=
  let r := updateAircraftT station now s.Aircraft st
  (r.1, { s with Aircraft := r.2.1 })

/-- Go's conversion of a `float64` to an integer type truncates toward
zero (`Rat.floor`/`Rat.ceil` are the kernel-computable floor and ceiling). -/
def truncQ (q : ℚ) : Int :=
  if 0 ≤ q then Rat.floor q else Rat.ceil q

/-- Nanoseconds in `time.Second`. -/
def nanosPerSec : Int := 1000000000

/-- `time.Second * time.Duration(seen)`: the whole-second duration (in
nanoseconds) the purge compares against `maxAge`. -/
def lastSeenDur (seen : ℚ) : Int :=
  nanosPerSec * truncQ seen

/-- The `seen` set built at the top of `purgeAircraft`: every callsign in the
scan slice, including empty and otherwise inadmissible ones. -/
def scanFlights (s : Scan) : List String :=
  s.Aircraft.map (fun a => a.Flight)

/-- `purgeAircraft`'s sweep over one store entry: keep it iff its key is in
the scan's `seen` set and its whole-second age does not exceed `maxAge`. -/
def purgeKeeps (s : Scan) (maxAge : Int) (kv : String × AircraftPos) : Bool :=
  decide (kv.1 ∈ scanFlights s) && !decide (lastSeenDur kv.2.aircraft.Seen > maxAge)

/-- `purgeAircraft` from `aircraft.go`, with trace.  The Go loop ranges over
the map and deletes only the entry under the cursor, so every original entry
is visited exactly once and kept or deleted independently.  No lock is
taken anywhere in the function. -/
def purgeAircraftT (s : Scan) (maxAge : Int) : Store → Store × List StoreAction
  | [] => ([], [])
  | (k, v) :: rest =>
    let r := purgeAircraftT s maxAge rest
    if purgeKeeps s maxAge (k, v) then
      ((k, v) :: r.1, StoreAction.readMap k :: r.2)
    else
      (r.1, StoreAction.readMap k :: StoreAction.deleteMap k :: r.2)

/-- `purgeAircraftT` without its trace. -/
def purgeAircraft (s : Scan) (st : Store) (maxAge : Int) : Store :=
  (purgeAircraftT s maxAge st).1

/-- The legacy `aircraft` struct from `updater.go`, used for outbound
messages. -/
structure AircraftMsg where
  Flight : String
  Lon : ℚ
  Lat : ℚ
  Track : ℚ
  Speed : Int
  Hex : String
  Squawk : String
  Seen : ℚ
  SeenPos : ℚ
  Messages : Int
  Category : String
  NUCP : Int
  Timestamp : Int
  Altitude : Int
  VertRate : Int
  Rssi : ℚ
  type_ : String
  StationName : String

/-- The struct literal in `startUpdater`'s loop that maps a stored record to
the legacy message shape (`Speed` from `Tas`, `Altitude` from `AltGeom`,
`VertRate` from `GeomRate`; `NUCP` is never set, so it is the zero value). -/
def toMsg (a : Aircraft) : AircraftMsg :=
  { Flight := a.Flight, Lon := a.Lon, Lat := a.Lat, Track := a.Track,
    Speed := a.Tas, Hex := a.Hex, Squawk := a.Squawk, Seen := a.Seen,
    SeenPos := a.SeenPos, Messages := a.Messages, Category := a.Category,
    NUCP := 0, Timestamp := a.Timestamp, Altitude := a.AltGeom,
    VertRate := a.GeomRate, Rssi := a.Rssi, type_ := a.type_,
    StationName := a.StationName }

/-- One publish tick of `startUpdater`'s loop, with trace.  `sink n` is the
success/failure of the n-th publish call this tick.  The Go `range` yields a
copy of each map value, so the assignment `v.modified = false` after the
publish writes only that local copy (`vCopy` below) and the store is threaded
through unchanged; the assignment happens whether or not the publish
succeeded.  The publish call itself is made between `store.lock.Lock()` and
`store.lock.Unlock()`.  Returns the resulting store, the messages handed to
the sink, and the trace. -/
def publishTickT (sink : Nat → Bool) : Store → Nat → Store × List AircraftMsg × List StoreAction
  | [], _ => ([], [], [])
  | (k, v) :: rest, n =>
    if v.modified = false then
      let r := publishTickT sink rest n
      ((k, v) :: r.1, r.2.1, StoreAction.readMap k :: r.2.2)
    else
      let msg := toMsg v.aircraft
      let _ok := sink n
      let _vCopy : AircraftPos := { v with modified := false }
      let r := publishTickT sink rest (n + 1)
      ((k, v) :: r.1, msg :: r.2.1,
       StoreAction.readMap k :: StoreAction.lockA :: StoreAction.publishA :: StoreAction.unlockA :: r.2.2)

/-- `publishTickT` without messages or trace: the store as the tick leaves
it. -/
def publishTick (sink : Nat → Bool) (st : Store) : Store :=
  (publishTickT sink st 0).1

/-- The state carried across `startMonitor`'s goroutine loop iterations. -/
structure MonitorLoop where
  path : String
  dur : Int
  maxAge : Int
  store : Store
  station : String
  lastModified : Int

/-- `startMonitor` from `main.go`: the synchronous part.  With a nil store it
returns an error before the ticker is created or the goroutine is launched;
otherwise it returns the launched loop's initial state (the watermark starts
at the current time). -/
def startMonitor (now : Int) (path : String) (dur maxAge : Int)
    (store : Option Store) (station : String) : Except String MonitorLoop :=
  match store with
  | none => Except.error "no data store provided"
  | some st =>
    Except.ok { path := path, dur := dur, maxAge := maxAge, store := st,
                station := station, lastModified := now }

/-- The outcome of `dec.Decode(&scan)` on this tick: success with the decoded
scan, or an error together with the value `scan` holds after the failed
decode (the zero `Scan` when nothing was decoded before the failure; this
also covers the nil reader after a failed `os.Open`). -/
inductive DecodeRes where
  | ok : Scan → DecodeRes
  | err : String → Scan → DecodeRes

/-- The scan value in hand after `dec.Decode(&scan)` returns. -/
def DecodeRes.scan : DecodeRes → Scan
  | DecodeRes.ok s => s
  | DecodeRes.err _ s => s

/-- One tick of `startMonitor`'s loop.  `stat` is the `os.Stat` outcome (the
file's modification time on success), `dec` the decode outcome, `now` the
tick's wall-clock reading used to stamp timestamps.  A stat failure
`continue`s.  When the modification time has advanced, the watermark moves
and the body runs; the decode branches only log, so `updateAircraft` and
`purgeAircraft` run on `dec.scan` even when the decode failed. -/
def monitorTick (m : MonitorLoop) (stat : Except String Int) (dec : DecodeRes)
    (now : Int) : MonitorLoop :=
  match stat with
  | Except.error _ => m
  | Except.ok modTime =>
    if m.lastModified < modTime then
      let r := updateAircraft dec.scan m.store m.station now
      let st2 := purgeAircraft r.2 r.1 m.maxAge
      { m with lastModified := modTime, store := st2 }
    else m

/-- Whether an action is a map write. -/
def isWrite : StoreAction → Bool
  | StoreAction.writeMap _ => true
  | _ => false

/-- Whether an action is a map read. -/
def isRead : StoreAction → Bool
  | StoreAction.readMap _ => true
  | _ => false

/-- Whether an action is a map delete. -/
def isDelete : StoreAction → Bool
  | StoreAction.deleteMap _ => true
  | _ => false

/-- Whether an action is a publish call to the external sink. -/
def isPublish : StoreAction → Bool
  | StoreAction.publishA => true
  | _ => false

/-- Whether an action acquires or releases the store's lock. -/
def isLockOp : StoreAction → Bool
  | StoreAction.lockA => true
  | StoreAction.unlockA => true
  | _ => false

/-- Whether an action is anything other than a lock acquire/release. -/
def nonLock (a : StoreAction) : Bool := !isLockOp a

/-- Lock state after one action. -/
def lockStep (h : Bool) : StoreAction → Bool
  | StoreAction.lockA => true
  | StoreAction.unlockA => false
  | _ => h

/-- Lock state after a whole trace, starting from `h`. -/
def lockEnd (t : List StoreAction) (h : Bool) : Bool :=
  t.foldl lockStep h

/-- Every action satisfying `p` in the trace occurs while the lock is held
(`h` = lock held on entry). -/
def allUnderLock (p : StoreAction → Bool) : List StoreAction → Bool → Bool
  | [], _ => true
  | a :: r, h => (!(p a) || h) && allUnderLock p r (lockStep h a)

/-- Every action satisfying `p` in the trace occurs while the lock is NOT
held. -/
def allOutsideLock (p : StoreAction → Bool) : List StoreAction → Bool → Bool
  | [], _ => true
  | a :: r, h => (!(p a) || !h) && allOutsideLock p r (lockStep h a)

/-- Some action satisfying `p` occurs while the lock is held. -/
def someUnderLock (p : StoreAction → Bool) : List StoreAction → Bool → Bool
  | [], _ => false
  | a :: r, h => (p a && h) || someUnderLock p r (lockStep h a)

/-- Some action satisfying `p` occurs while the lock is NOT held. -/
def someOutsideLock (p : StoreAction → Bool) : List StoreAction → Bool → Bool
  | [], _ => false
  | a :: r, h => (p a && !h) || someOutsideLock p r (lockStep h a)

/-- Fixture: an aircraft record with the fields the claims exercise set and
every other field at the Go zero value. -/
def mkAircraft (flight : String) (lat lon : ℚ) (altG altB : Int)
    (track seen : ℚ) : Aircraft :=
  { Aircraft.zero with
    Flight := flight
    Lat := lat
    Lon := lon
    AltGeom := altG
    AltBaro := altB
    Track := track
    Seen := seen }

/-- 61.4, in lowest terms so that the kernel can compute with it. -/
def q614 : ℚ := ⟨307, 5, by decide, by decide⟩

/-- 60.5, in lowest terms so that the kernel can compute with it. -/
def q605 : ℚ := ⟨121, 2, by decide, by decide⟩

/-- Fixture: a valid record for callsign "A". -/
def acA : Aircraft := mkAircraft "A" 1 2 3 4 5 6

/-- Fixture: a record whose callsign is whitespace only. -/
def acWs : Aircraft := mkAircraft " " 1 2 3 4 5 6

/-- Fixture: a record for callsign "B" with seen age 61.4 seconds. -/
def acB : Aircraft := mkAircraft "B" 1 2 3 4 5 q614

/-- Fixture: a store holding `acA` with a clean dirty flag. -/
def stCleanA : Store := [("A", { modified := false, aircraft := acA })]

/-- Fixture: a store holding `acA` with the dirty flag set. -/
def stDirtyA : Store := [("A", { modified := true, aircraft := acA })]

/-- Fixture: a store holding `acB`. -/
def stB : Store := [("B", { modified := false, aircraft := acB })]

/-- Fixture: a scan containing only `acB`. -/
def scanB : Scan := { Now := 0, Messages := 0, Aircraft := [acB] }

/-- Fixture: the empty scan (also the Go zero value of `Scan`, the value a
failed decode that read nothing leaves behind). -/
def scanEmpty : Scan := { Now := 0, Messages := 0, Aircraft := [] }

/-- Fixture: a maximum age of 60.5 seconds in nanoseconds. -/
def maxAge605 : Int := 60500000000

/-- Fixture: a maximum age of 60 seconds in nanoseconds. -/
def maxAge60 : Int := 60000000000

/-- Fixture: a sink whose publish calls all succeed. -/
def sinkOk : Nat → Bool := fun _ => true

/-- Whether a `(Bool, error)` result carries an error. -/
def isErr : Except String Bool → Bool
  | Except.error _ => true
  | Except.ok _ => false

/-- Fixture: a record for callsign "C" with seen age 60.5 seconds. -/
def acC : Aircraft := mkAircraft "C" 1 2 3 4 5 q605

/-- Fixture: a store holding `acC`. -/
def stC : Store := [("C", { modified := false, aircraft := acC })]

/-- Fixture: a scan containing only `acC`. -/
def scanC : Scan := { Now := 0, Messages := 0, Aircraft := [acC] }

/-- Fixture: a monitor loop state over the store `stCleanA`. -/
def mLoopA : MonitorLoop :=
  { path := "/run/dump1090-mutability/aircraft.json", dur := nanosPerSec,
    maxAge := maxAge60, store := stCleanA, station := "ST",
    lastModified := 0 }

theorem purgeAircraft_eq_filter (s : Scan) (maxAge : Int) :
    ∀ st : Store, purgeAircraft s st maxAge = st.filter (purgeKeeps s maxAge) := by
  intro st
  induction st with
  | nil => rfl
  | cons kv rest ih =>
    obtain ⟨k, v⟩ := kv
    simp only [purgeAircraft, purgeAircraftT] at ih ⊢
    by_cases h : purgeKeeps s maxAge (k, v)
    · simp [h, List.filter_cons, ih]
    · simp [h, List.filter_cons, ih]

theorem lookupStore_insertStore_self :
    ∀ (st : Store) (k : String) (v : AircraftPos),
      lookupStore (insertStore st k v) k = some v := by
  intro st
  induction st with
  | nil => intro k v; simp [insertStore, lookupStore]
  | cons kv rest ih =>
    intro k v
    obtain ⟨k', v'⟩ := kv
    by_cases h : k' = k
    · simp [insertStore, h, lookupStore]
    · simp [insertStore, h, lookupStore, ih]

theorem lookupStore_insertStore_ne :
    ∀ (st : Store) (k k₂ : String) (v : AircraftPos), k₂ ≠ k →
      lookupStore (insertStore st k v) k₂ = lookupStore st k₂ := by
  intro st
  induction st with
  | nil => intro k k₂ v h; simp [insertStore, lookupStore, Ne.symm h]
  | cons kv rest ih =>
    intro k k₂ v h
    obtain ⟨k', v'⟩ := kv
    by_cases hk : k' = k
    · subst hk
      simp [insertStore, lookupStore, Ne.symm h]
    · simp only [insertStore, if_neg hk]
      by_cases h2 : k' = k₂
      · simp [lookupStore, h2]
      · simp [lookupStore, h2, ih k k₂ v h]

theorem mem_insertStore :
    ∀ (st : Store) (k : String) (v : AircraftPos) (x : String × AircraftPos),
      x ∈ insertStore st k v → x = (k, v) ∨ x ∈ st := by
  intro st
  induction st with
  | nil => intro k v x h; simp [insertStore] at h; exact Or.inl h
  | cons kv rest ih =>
    intro k v x h
    obtain ⟨k', v'⟩ := kv
    by_cases hk : k' = k
    · simp [insertStore, hk] at h
      rcases h with h | h
      · exact Or.inl (by simp [h])
      · exact Or.inr (by simp [h])
    · simp [insertStore, hk] at h
      rcases h with h | h
      · exact Or.inr (by simp [h])
      · rcases ih k v x h with h2 | h2
        · exact Or.inl h2
        · exact Or.inr (by simp [h2])

theorem publishTickT_fst (sink : Nat → Bool) :
    ∀ (st : Store) (n : Nat), (publishTickT sink st n).1 = st := by
  intro st
  induction st with
  | nil => intro n; rfl
  | cons kv rest ih =>
    intro n
    obtain ⟨k, v⟩ := kv
    by_cases h : v.modified = false
    · simp [publishTickT, h, ih]
    · simp [publishTickT, h, ih]

theorem movedOrFalse_eq_false (a b : Aircraft) (h : HasMoved a b ≠ Except.ok true) :
    movedOrFalse a b = false := by
  unfold movedOrFalse
  cases hm : HasMoved a b with
  | ok v =>
    cases v with
    | true => exact absurd hm h
    | false => rfl
  | error e => rfl

theorem upsertAircraftT_absent (st : Store) (a : Aircraft)
    (h : lookupStore st a.Flight = none) :
    upsertAircraftT st a =
      (insertStore st a.Flight { modified := true, aircraft := a },
       [StoreAction.readMap a.Flight, StoreAction.lockA,
        StoreAction.writeMap a.Flight, StoreAction.unlockA]) := by
  simp [upsertAircraftT, h]

theorem upsertAircraftT_unchanged (st : Store) (a : Aircraft) (p : AircraftPos)
    (h : lookupStore st a.Flight = some p)
    (hm : HasMoved a p.aircraft ≠ Except.ok true) :
    upsertAircraftT st a = (st, [StoreAction.readMap a.Flight]) := by
  simp [upsertAircraftT, h, movedOrFalse_eq_false a p.aircraft hm]

theorem upsertAircraftT_moved (st : Store) (a : Aircraft) (p : AircraftPos)
    (h : lookupStore st a.Flight = some p)
    (hm : HasMoved a p.aircraft = Except.ok true) :
    upsertAircraftT st a =
      (insertStore st a.Flight { modified := true, aircraft := a },
       [StoreAction.readMap a.Flight, StoreAction.lockA,
        StoreAction.writeMap a.Flight, StoreAction.unlockA]) := by
  simp [upsertAircraftT, h, movedOrFalse, hm]

theorem mem_upsertAircraftT (st : Store) (a : Aircraft) (x : String × AircraftPos)
    (h : x ∈ (upsertAircraftT st a).1) :
    x ∈ st ∨ x = (a.Flight, { modified := true, aircraft := a }) := by
  simp only [upsertAircraftT] at h
  split at h
  · exact Or.inl h
  · rcases mem_insertStore st a.Flight _ x h with h2 | h2
    · exact Or.inr h2
    · exact Or.inl h2

theorem mem_updateAircraftT (station : String) (now : Int) :
    ∀ (l : List Aircraft) (st : Store) (x : String × AircraftPos),
      x ∈ (updateAircraftT station now l st).1 →
      x ∈ st ∨ ∃ a, a ∈ l ∧ admissible a = true ∧
        x = ((normalizeAircraft a station now).Flight,
             { modified := true, aircraft := normalizeAircraft a station now }) := by
  intro l
  induction l with
  | nil => intro st x h; exact Or.inl h
  | cons a rest ih =>
    intro st x h
    by_cases ha : admissible a = true
    · simp only [updateAircraftT, ha, if_true] at h
      rcases ih _ x h with hx | ⟨b, hb, hadm, hxeq⟩
      · rcases mem_upsertAircraftT _ _ x hx with h2 | h2
        · exact Or.inl h2
        · exact Or.inr ⟨a, List.mem_cons_self a rest, ha, h2⟩
      · exact Or.inr ⟨b, List.mem_cons_of_mem a hb, hadm, hxeq⟩
    · simp only [updateAircraftT, ha, if_false] at h
      rcases ih _ x h with hx | ⟨b, hb, hadm, hxeq⟩
      · exact Or.inl hx
      · exact Or.inr ⟨b, List.mem_cons_of_mem a hb, hadm, hxeq⟩

theorem ratFloor_eq_intFloor (q : ℚ) : Rat.floor q = ⌊q⌋ := by
  rw [Rat.floor_def', ← Rat.floor_def]

theorem q614_eq : q614 = (307:ℚ)/5 := by
  have h := Rat.num_div_den q614
  rw [show q614.num = 307 from rfl, show q614.den = 5 from rfl] at h
  push_cast at h
  exact h.symm

theorem q605_eq : q605 = (121:ℚ)/2 := by
  have h := Rat.num_div_den q605
  rw [show q605.num = 121 from rfl, show q605.den = 2 from rfl] at h
  push_cast at h
  exact h.symm



theorem lockEnd_cons (a : StoreAction) (r : List StoreAction) (h : Bool) :
    lockEnd (a :: r) h = lockEnd r (lockStep h a) := by
  simp [lockEnd, List.foldl]

theorem allUnderLock_append (p : StoreAction → Bool) :
    ∀ (t1 t2 : List StoreAction) (h : Bool),
      allUnderLock p (t1 ++ t2) h =
        (allUnderLock p t1 h && allUnderLock p t2 (lockEnd t1 h)) := by
  intro t1
  induction t1 with
  | nil => intro t2 h; simp [allUnderLock, lockEnd]
  | cons a r ih =>
    intro t2 h
    simp [allUnderLock, lockEnd_cons, ih, Bool.and_assoc]

theorem allOutsideLock_append (p : StoreAction → Bool) :
    ∀ (t1 t2 : List StoreAction) (h : Bool),
      allOutsideLock p (t1 ++ t2) h =
        (allOutsideLock p t1 h && allOutsideLock p t2 (lockEnd t1 h)) := by
  intro t1
  induction t1 with
  | nil => intro t2 h; simp [allOutsideLock, lockEnd]
  | cons a r ih =>
    intro t2 h
    simp [allOutsideLock, lockEnd_cons, ih, Bool.and_assoc]

theorem upsertAircraftT_trace_cases (st : Store) (a : Aircraft) :
    (upsertAircraftT st a).2 = [StoreAction.readMap a.Flight] ∨
    (upsertAircraftT st a).2 =
      [StoreAction.readMap a.Flight, StoreAction.lockA,
       StoreAction.writeMap a.Flight, StoreAction.unlockA] := by
  simp only [upsertAircraftT]
  split
  · exact Or.inl rfl
  · exact Or.inr rfl

theorem updateAircraftT_writes_locked (station : String) (now : Int) :
    ∀ (l : List Aircraft) (st : Store),
      allUnderLock isWrite (updateAircraftT station now l st).2.2 false = true := by
  intro l
  induction l with
  | nil => intro st; rfl
  | cons a rest ih =>
    intro st
    by_cases ha : admissible a = true
    · simp only [updateAircraftT, ha, if_true]
      rw [allUnderLock_append]
      rcases upsertAircraftT_trace_cases st (normalizeAircraft a station now) with hc | hc <;>
        simp [hc, allUnderLock, lockStep, isWrite, lockEnd, ih]
    · simp only [updateAircraftT, ha, if_false]
      exact ih st

theorem updateAircraftT_reads_unlocked (station : String) (now : Int) :
    ∀ (l : List Aircraft) (st : Store),
      allOutsideLock isRead (updateAircraftT station now l st).2.2 false = true := by
  intro l
  induction l with
  | nil => intro st; rfl
  | cons a rest ih =>
    intro st
    by_cases ha : admissible a = true
    · simp only [updateAircraftT, ha, if_true]
      rw [allOutsideLock_append]
      rcases upsertAircraftT_trace_cases st (normalizeAircraft a station now) with hc | hc <;>
        simp [hc, allOutsideLock, lockStep, isRead, lockEnd, ih]
    · simp only [updateAircraftT, ha, if_false]
      exact ih st

theorem purgeAircraftT_no_lock (s : Scan) (maxAge : Int) :
    ∀ st : Store, ((purgeAircraftT s maxAge st).2.all nonLock) = true := by
  intro st
  induction st with
  | nil => rfl
  | cons kv rest ih =>
    obtain ⟨k, v⟩ := kv
    simp only [purgeAircraftT]
    split <;> simp [List.all_cons, nonLock, isLockOp, ih]

theorem publishTickT_publishes_locked (sink : Nat → Bool) :
    ∀ (st : Store) (n : Nat),
      allUnderLock isPublish (publishTickT sink st n).2.2 false = true := by
  intro st
  induction st with
  | nil => intro n; rfl
  | cons kv rest ih =>
    intro n
    obtain ⟨k, v⟩ := kv
    by_cases h : v.modified = false
    · simp [publishTickT, h, allUnderLock, lockStep, isPublish, ih]
    · simp [publishTickT, h, allUnderLock, lockStep, isPublish, ih]

theorem publishTickT_reads_unlocked (sink : Nat → Bool) :
    ∀ (st : Store) (n : Nat),
      allOutsideLock isRead (publishTickT sink st n).2.2 false = true := by
  intro st
  induction st with
  | nil => intro n; rfl
  | cons kv rest ih =>
    intro n
    obtain ⟨k, v⟩ := kv
    by_cases h : v.modified = false
    · simp [publishTickT, h, allOutsideLock, lockStep, isRead, ih]
    · simp [publishTickT, h, allOutsideLock, lockStep, isRead, ih]



theorem hasMoved_ok_form (a1 a2 : Aircraft) (h1 : a1.Flight ≠ "") (h2 : a1.Flight = a2.Flight) :
    HasMoved a1 a2 = Except.ok (decide (¬(a1.Lon = a2.Lon ∧ a1.Lat = a2.Lat ∧
      a1.AltGeom = a2.AltGeom ∧ a1.AltBaro = a2.AltBaro ∧ a1.Track = a2.Track))) := by
  have h2' : a2.Flight ≠ "" := fun e => h1 (h2.trans e)
  simp [HasMoved, h1, h2, h2']

/-- C4: an entry survives the purge pass iff its key is among the scan's
callsigns and its whole-second age does not exceed the maximum age; surviving
entries are unchanged. -/
theorem purgeAircraft_removes_iff (s : Scan) (st : Store) (maxAge : Int)
    (k : String) (v : AircraftPos) :
    (k, v) ∈ purgeAircraft s st maxAge ↔
      ((k, v) ∈ st ∧ k ∈ scanFlights s ∧ ¬(lastSeenDur v.aircraft.Seen > maxAge)) := by
  rw [purgeAircraft_eq_filter]
  simp [List.mem_filter, purgeKeeps, and_assoc]

/-- C5: for equal non-empty callsigns, `HasMoved` is true iff one of lat, lon,
geometric altitude, barometric altitude or track differs; it is false on
identical records; and it depends on nothing but those five fields. -/
theorem hasMoved_depends_only_on_position_fields (a1 a2 : Aircraft)
    (h1 : a1.Flight ≠ "") (h2 : a1.Flight = a2.Flight) :
    (HasMoved a1 a2 = Except.ok true ↔
      ¬(a1.Lat = a2.Lat ∧ a1.Lon = a2.Lon ∧ a1.AltGeom = a2.AltGeom ∧
        a1.AltBaro = a2.AltBaro ∧ a1.Track = a2.Track)) ∧
    HasMoved a1 a1 = Except.ok false ∧
    (∀ b1 b2 : Aircraft, b1.Flight ≠ "" → b1.Flight = b2.Flight →
      b1.Lat = a1.Lat → b2.Lat = a2.Lat → b1.Lon = a1.Lon → b2.Lon = a2.Lon →
      b1.AltGeom = a1.AltGeom → b2.AltGeom = a2.AltGeom →
      b1.AltBaro = a1.AltBaro → b2.AltBaro = a2.AltBaro →
      b1.Track = a1.Track → b2.Track = a2.Track →
      HasMoved b1 b2 = HasMoved a1 a2) := by
  refine ⟨?_, ?_, ?_⟩
  · rw [hasMoved_ok_form a1 a2 h1 h2]
    simp only [Except.ok.injEq, decide_eq_true_eq]
    tauto
  · rw [hasMoved_ok_form a1 a1 h1 rfl]
    simp
  · intro b1 b2 hb1 hbf e1 e2 e3 e4 e5 e6 e7 e8 e9 e10
    rw [hasMoved_ok_form b1 b2 hb1 hbf, hasMoved_ok_form a1 a2 h1 h2,
      e1, e2, e3, e4, e5, e6, e7, e8, e9, e10]

theorem hasMoved_depends_witness :
    acA.Flight ≠ "" ∧ HasMoved acA acA = Except.ok false :=
  ⟨by decide, (hasMoved_depends_only_on_position_fields acA acA (by decide) rfl).2.1⟩

/-- C6: `HasMoved` returns an error exactly when either callsign is empty or
the two differ. -/
theorem hasMoved_errors_iff (a1 a2 : Aircraft) :
    isErr (HasMoved a1 a2) = true ↔
      (a1.Flight = "" ∨ a2.Flight = "" ∨ a1.Flight ≠ a2.Flight) := by
  by_cases h1 : a1.Flight = "" ∨ a2.Flight = ""
  · simp only [HasMoved, if_pos h1, isErr]
    tauto
  · by_cases h2 : a1.Flight ≠ a2.Flight
    · simp only [HasMoved, if_neg h1, if_pos h2, isErr]
      tauto
    · simp only [HasMoved, if_neg h1, if_neg h2, isErr]
      push_neg at h1 h2
      simp [h1.1, h1.2, h2]

/-- C7: the per-record merge step inserts a missing record as new-and-dirty,
leaves the store untouched when the detector reports unchanged or errors, and
replaces the record dirty when it reports moved, leaving other keys alone. -/
theorem upsert_merge_cases (st : Store) (a : Aircraft) :
    (lookupStore st a.Flight = none →
      upsertAircraft st a = insertStore st a.Flight { modified := true, aircraft := a } ∧
      lookupStore (upsertAircraft st a) a.Flight = some { modified := true, aircraft := a }) ∧
    (∀ p, lookupStore st a.Flight = some p →
      HasMoved a p.aircraft ≠ Except.ok true →
      upsertAircraft st a = st) ∧
    (∀ p, lookupStore st a.Flight = some p →
      HasMoved a p.aircraft = Except.ok true →
      lookupStore (upsertAircraft st a) a.Flight = some { modified := true, aircraft := a } ∧
      ∀ k, k ≠ a.Flight → lookupStore (upsertAircraft st a) k = lookupStore st k) := by
  refine ⟨?_, ?_, ?_⟩
  · intro h
    have he := upsertAircraftT_absent st a h
    exact ⟨by simp [upsertAircraft, he],
           by simp [upsertAircraft, he, lookupStore_insertStore_self]⟩
  · intro p hp hm
    simp [upsertAircraft, upsertAircraftT_unchanged st a p hp hm]
  · intro p hp hm
    have he := upsertAircraftT_moved st a p hp hm
    refine ⟨by simp [upsertAircraft, he, lookupStore_insertStore_self], ?_⟩
    intro k hk
    simp [upsertAircraft, he, lookupStore_insertStore_ne st a.Flight k _ hk]

theorem upsert_merge_cases_witness :
    lookupStore ([] : Store) acA.Flight = none ∧
    lookupStore (upsertAircraft [] acA) acA.Flight =
      some { modified := true, aircraft := acA } :=
  ⟨rfl, ((upsert_merge_cases [] acA).1 rfl).2⟩

/-- C1 (code evaluation): a tick whose decode fails with nothing decoded
still runs merge and purge on the zero `Scan`, emptying a previously
non-empty store instead of leaving it unchanged. -/
theorem monitor_decode_failure_purges_store :
    (monitorTick mLoopA (Except.ok 5)
        (DecodeRes.err "failed to parse file" scanEmpty) 99).store = [] ∧
    mLoopA.store = stCleanA ∧ stCleanA ≠ [] :=
  ⟨rfl, rfl, by simp [stCleanA]⟩

/-- C2 (code evaluation): a publish tick over a dirty entry whose publish
succeeds hands the message to the sink but leaves the store's dirty flag
`true` (the clearing assignment writes a range-loop copy). -/
theorem publish_success_leaves_entry_dirty :
    (publishTickT sinkOk stDirtyA 0).2.1 = [toMsg acA] ∧
    publishTick sinkOk stDirtyA = stDirtyA ∧
    lookupStore (publishTick sinkOk stDirtyA) "A" =
      some { modified := true, aircraft := acA } :=
  ⟨rfl, rfl, rfl⟩

/-- C3 (counterexample): merging a record whose callsign is whitespace-only
admits it — the callsign is trimmed to the empty string after the admission
check, so the store ends up with an empty-identity entry. -/
theorem merge_admits_empty_identity :
    ∃ p, lookupStore (updateAircraft
        { Now := 0, Messages := 0, Aircraft := [acWs] } [] "ST" 99).1 "" = some p
      ∧ p.aircraft.Flight = "" :=
  ⟨{ modified := true, aircraft := normalizeAircraft acWs "ST" 99 }, rfl, rfl⟩

/-- C3 (amended): merge admits no record with a zero coordinate, and the
zero-coordinate-free property of the store is preserved; the empty-identity
part of the original claim holds only for the untrimmed callsign. -/
theorem merge_never_admits_zero_coordinates (s : Scan) (st : Store)
    (station : String) (now : Int)
    (h : ∀ kv ∈ st, kv.2.aircraft.Lat ≠ 0 ∧ kv.2.aircraft.Lon ≠ 0) :
    ∀ kv ∈ (updateAircraft s st station now).1,
      kv.2.aircraft.Lat ≠ 0 ∧ kv.2.aircraft.Lon ≠ 0 := by
  intro kv hkv
  rcases mem_updateAircraftT station now s.Aircraft st kv hkv with hx | ⟨a, _, hadm, rfl⟩
  · exact h kv hx
  · simp only [admissible, decide_eq_true_eq] at hadm
    push_neg at hadm
    exact ⟨by simpa [normalizeAircraft] using hadm.2.2,
           by simpa [normalizeAircraft] using hadm.2.1⟩

theorem merge_never_admits_zero_coordinates_witness :
    acB.Lat ≠ 0 ∧ acB.Lon ≠ 0 :=
  merge_never_admits_zero_coordinates scanB stB "ST" 99
    (fun kv hkv => by
      rw [stB, List.mem_singleton] at hkv
      subst hkv
      exact ⟨by decide, by decide⟩)
    ("B", { modified := false, aircraft := acB })
    (List.mem_singleton.mpr rfl)

/-- C8 (counterexample): a publish call happens while the lock is held, a
purge deletion happens without the lock, and the merge's lookup happens
without the lock. -/
theorem lock_discipline_cex :
    someUnderLock isPublish (publishTickT sinkOk stDirtyA 0).2.2 false = true ∧
    someOutsideLock isDelete (purgeAircraftT scanEmpty maxAge60 stCleanA).2 false = true ∧
    someOutsideLock isRead (updateAircraftT "ST" 99 [acA] stCleanA).2.2 false = true :=
  ⟨rfl, rfl, rfl⟩

/-- C8 (amended): merge map writes do happen under the lock, but the merge's
lookup is unlocked, the purge sweep takes no lock at all, the publish loop's
iteration reads are unlocked, and the publish call itself is made while the
lock is held. -/
theorem lock_discipline_actual (station : String) (now : Int) (l : List Aircraft)
    (st st2 st3 : Store) (s : Scan) (maxAge : Int) (sink : Nat → Bool) (n : Nat) :
    allUnderLock isWrite (updateAircraftT station now l st).2.2 false = true ∧
    allOutsideLock isRead (updateAircraftT station now l st).2.2 false = true ∧
    ((purgeAircraftT s maxAge st2).2.all nonLock) = true ∧
    allUnderLock isPublish (publishTickT sink st3 n).2.2 false = true ∧
    allOutsideLock isRead (publishTickT sink st3 n).2.2 false = true :=
  ⟨updateAircraftT_writes_locked station now l st,
   updateAircraftT_reads_unlocked station now l st,
   purgeAircraftT_no_lock s maxAge st2,
   publishTickT_publishes_locked sink st3 n,
   publishTickT_reads_unlocked sink st3 n⟩

/-- C9: constructing the monitor with a nil store fails with an error before
any loop state exists or any background work is started. -/
theorem startMonitor_nil_store (now : Int) (path : String) (dur maxAge : Int)
    (station : String) :
    startMonitor now path dur maxAge none station =
      Except.error "no data store provided" := rfl

/-- C10 (counterexample): with a maximum age of 60.5s, an entry present in
the snapshot with seen age 61.4s exceeds the maximum age by only 0.9s, yet
the purge removes it (61.4 truncates to 61s > 60.5s). -/
theorem purge_truncation_cex :
    maxAge605 = 60500000000 ∧ (q605 * 1000000000 : ℚ) = (60500000000 : ℚ) ∧
    acB.Seen = q614 ∧ q605 < q614 ∧ q614 < q605 + 1 ∧
    ("B", { modified := false, aircraft := acB }) ∈ stB ∧
    "B" ∈ scanFlights scanB ∧
    purgeAircraft scanB stB maxAge605 = [] := by
  refine ⟨rfl, by rw [q605_eq]; norm_num, rfl, by decide,
    by rw [q614_eq, q605_eq]; norm_num, List.mem_singleton.mpr rfl, by decide, rfl⟩

/-- C10 (amended): when the maximum age is a whole number of seconds `m`, an
entry present in the snapshot whose seen age strictly exceeds `m` by less
than one second is retained by the purge. -/
theorem purge_truncation_retains_whole_second (m : Nat) (s : Scan) (st : Store)
    (k : String) (v : AircraftPos) (hmem : (k, v) ∈ st) (hk : k ∈ scanFlights s)
    (h1 : (m : ℚ) < v.aircraft.Seen) (h2 : v.aircraft.Seen < (m : ℚ) + 1) :
    (k, v) ∈ purgeAircraft s st (nanosPerSec * (m : Int)) := by
  rw [purgeAircraft_eq_filter, List.mem_filter]
  refine ⟨hmem, ?_⟩
  have h0 : (0:ℚ) ≤ v.aircraft.Seen :=
    le_of_lt (lt_of_le_of_lt (Nat.cast_nonneg m) h1)
  have hfl : truncQ v.aircraft.Seen = (m : Int) := by
    rw [truncQ, if_pos h0, ratFloor_eq_intFloor, Int.floor_eq_iff]
    constructor
    · exact_mod_cast le_of_lt h1
    · exact_mod_cast h2
  simp only [purgeKeeps, lastSeenDur, hfl]
  simp [hk]

theorem purge_truncation_retains_witness :
    ((60:ℕ) : ℚ) < acC.Seen ∧ acC.Seen < ((60:ℕ) : ℚ) + 1 ∧
    ("C", { modified := false, aircraft := acC }) ∈
      purgeAircraft scanC stC (nanosPerSec * ((60:ℕ) : Int)) :=
  ⟨by decide,
   by rw [show acC.Seen = q605 from rfl, q605_eq]; push_cast; norm_num,
   purge_truncation_retains_whole_second 60 scanC stC "C"
     { modified := false, aircraft := acC }
     (List.mem_singleton.mpr rfl) (by decide) (by decide)
     (by rw [show acC.Seen = q605 from rfl, q605_eq]; push_cast; norm_num)⟩
